import Mathlib

/-!
Shallow embedding of `src/scraper.py` (regalert-medtech): a three-stage
ETL pipeline (search identifiers, fetch and flatten details, persist and
reconcile into a SQLite table), together with proofs of the behavioural
properties stated in the specification.

Modelling conventions:
* Decoded JSON bodies are values of the inductive `Json`.
* A network interaction (`requests.get` + `raise_for_status` + `.json()`)
  is an explicit parameter of type `Except Unit Json`: `Except.error ()`
  stands for any `requests.exceptions.RequestException` (transport failure,
  non-success HTTP status, undecodable body — all are subclasses of
  `RequestException` in current `requests`), `Except.ok j` for a decoded
  body `j` of arbitrary shape.
* Python exceptions that are *not* a `RequestException` (KeyError from
  `d[k]`, AttributeError from `.get` on a non-dict, TypeError from slicing
  a non-sliceable value) are modelled by the `Except PyError` monad; the
  source's `except requests.exceptions.RequestException` clauses do not
  catch them, so they propagate out of the embedded functions.
* The SQLite table is a list of `(rowid, row)` pairs; SQLite assigns
  strictly increasing rowids on append, captured by `insertRow`.
* Storage-layer faults (caught by the source's bare `except Exception`
  clauses around `to_sql`, the cleanup statement and the count query) are
  modelled by explicit fault flags in `Env`.
-/

/-- A decoded JSON value. -/
inductive Json where
  | null : Json
  | str : String → Json
  | num : Int → Json
  | arr : List Json → Json
  | obj : List (String × Json) → Json

/-- Python exceptions other than `requests.exceptions.RequestException`;
these are not caught by the fetchers' `except` clauses. -/
inductive PyError where
  | keyError : PyError
  | typeError : PyError
  | attributeError : PyError
deriving DecidableEq, Repr

/-- Python `d[k]` subscription: KeyError on a dict without the key,
TypeError on a non-dict value. -/
def Json.index : Json → String → Except PyError Json
  | .obj fs, k =>
    match fs.lookup k with
    | some v => Except.ok v
    | none => Except.error .keyError
  | _, _ => Except.error .typeError

/-- Python `d.get(k, default)`: only dicts have `.get`; on any other value
the attribute access raises AttributeError. -/
def Json.getD : Json → String → Json → Except PyError Json
  | .obj fs, k, d => Except.ok ((fs.lookup k).getD d)
  | _, _, _ => Except.error .attributeError

/-- Reads the elements of `idlist` as Python strings, left to right. -/
def strList : List Json → Except PyError (List String)
  | [] => Except.ok []
  | .str s :: xs => do
    let rest ← strList xs
    Except.ok (s :: rest)
  | _ :: _ => Except.error .typeError

/-- Reads `idlist` as a Python list of strings. In the source the value is
used as a sequence of ids (`len(id_list)`, later `",".join(id_list)`);
any shape that cannot serve as such a sequence surfaces as an uncaught
TypeError, which we raise here. -/
def asStrList : Json → Except PyError (List String)
  | .arr xs => strList xs
  | _ => Except.error .typeError

/-- `get_pubmed_ids` (scraper.py lines 24-46): one search request; a
`RequestException` (transport, HTTP status, JSON decode) is caught and
yields `[]`; the nested accesses `data['esearchresult']['idlist']` are
inside the `try` but a KeyError/TypeError they raise is *not* caught by
`except requests.exceptions.RequestException` and propagates. -/
def get_pubmed_ids (resp : Except Unit Json) : Except PyError (List String) :=
  match resp with
  | .error _ => Except.ok []
  | .ok data => do
    let esr ← data.index "esearchresult"
    let idj ← esr.index "idlist"
    asStrList idj

/-- One flattened row, as built in the loop of `fetch_details_by_id`.
`title` and `journal` keep whatever JSON value the upstream sent (the
source stores them unchanged); `publication_Date` is the sliced string. -/
structure ArticleRecord where
  pmid : String
  title : Json
  journal : Json
  publication_Date : String
  source_URL : String

/-- Python string slicing `s[:n]`: the first `n` code points of `s`
(Python indexes `str` by code point, as `List Char` does here). -/
def strTake (s : String) (n : Nat) : String := ⟨s.data.take n⟩

/-- Field extraction for one detail object (`article` in the source):
`article.get('title', 'N/A')`, `article.get('fulljournalname', 'N/A')`,
`article.get('sortdate', 'N/A')[:10]`, and the interpolated URL.
Slicing a non-string `sortdate` value is modelled as a TypeError. -/
def flattenArticle (uid : String) (article : Json) : Except PyError ArticleRecord := do
  let title ← article.getD "title" (Json.str "N/A")
  let journal ← article.getD "fulljournalname" (Json.str "N/A")
  let sd ← article.getD "sortdate" (Json.str "N/A")
  match sd with
  | .str s =>
    Except.ok
      { pmid := uid
        title := title
        journal := journal
        publication_Date := strTake s 10
        source_URL := "https://pubmed.ncbi.nlm.nih.gov/" ++ uid ++ "/" }
  | _ => Except.error .typeError

/-- One loop iteration body: `article = summary_data['result'][uid]`
followed by the field extraction. -/
def mkRecord (summary_data : Json) (uid : String) : Except PyError ArticleRecord := do
  let result ← summary_data.index "result"
  let article ← result.index uid
  flattenArticle uid article

/-- Processes one element of the `uids` list. JSON object keys are
strings, so a non-string uid is not found in the `result` dict and the
subscription raises KeyError. -/
def procUid (summary_data : Json) : Json → Except PyError ArticleRecord
  | .str uid => mkRecord summary_data uid
  | _ => Except.error .keyError

/-- Python `for uid in uids` requires `uids` to be a sequence; a
non-sequence raises TypeError. -/
def asIterList : Json → Except PyError (List Json)
  | .arr xs => Except.ok xs
  | _ => Except.error .typeError

/-- The extraction loop `for uid in uids: records.append(...)`: one
record per uid, left to right; the first uncaught exception aborts the
loop and discards the batch. -/
def buildRecords (summary_data : Json) : List Json → Except PyError (List ArticleRecord)
  | [] => Except.ok []
  | u :: us => do
    let r ← procUid summary_data u
    let rs ← buildRecords summary_data us
    Except.ok (r :: rs)

/-- `fetch_details_by_id` (scraper.py lines 48-94): empty input
short-circuits to an empty batch before any network interaction; a
`RequestException` on the summary call is caught and yields an empty
batch; `uids = summary_data.get('result', {}).get('uids', [])` and the
per-uid extraction loop follow the source, with non-`RequestException`
exceptions propagating. -/
def fetch_details_by_id (id_list : List String) (resp : Except Unit Json) :
    Except PyError (List ArticleRecord) :=
  match id_list with
  | [] => Except.ok []
  | _ :: _ =>
    match resp with
    | .error _ => Except.ok []
    | .ok summary_data => do
      let result ← summary_data.getD "result" (Json.obj [])
      let uidsJ ← result.getD "uids" (Json.arr [])
      let uids ← asIterList uidsJ
      buildRecords summary_data uids

/-! ## The record store

A SQLite table is modelled as a list of `(rowid, row)` pairs in insertion
order; SQLite assigns each appended row a rowid strictly greater than
every rowid already in the table. -/

/-- The durable table: rows paired with their rowids, in insertion order. -/
abbrev Table := List (Nat × ArticleRecord)

/-- The next rowid SQLite assigns: strictly above every existing rowid. -/
def nextRowid (t : Table) : Nat := (t.map Prod.fst).foldr max 0 + 1

/-- Append one row at the end of the table with a fresh rowid. -/
def insertRow (t : Table) (r : ArticleRecord) : Table :=
  t ++ [(nextRowid t, r)]

/-- `df.to_sql(..., if_exists='append')`: insert the batch row by row. -/
def appendRows (t : Table) (rs : List ArticleRecord) : Table :=
  rs.foldl insertRow t

/-- Well-formedness of a reachable SQLite table: rowids strictly increase
in insertion order. -/
def wfTable (t : Table) : Prop := (t.map Prod.fst).Pairwise (· < ·)

instance (t : Table) : Decidable (wfTable t) := by
  unfold wfTable
  infer_instance

/-- The identifiers (PMID column) of a table, one entry per row. -/
def pmidsOf (t : Table) : List String := t.map fun p => p.2.pmid

/-- The rowids of the rows of `t` whose PMID column equals `pm`
(the `GROUP BY PMID` group of `pm`). -/
def rowidsOf (t : Table) (pm : String) : List Nat :=
  (t.filter fun p => decide (p.2.pmid = pm)).map Prod.fst

/-- `SELECT MIN(rowid) ... GROUP BY PMID` for one group: the least rowid
among the rows carrying `pm`, when any exist. -/
def minRowid (t : Table) (pm : String) : Option Nat :=
  match rowidsOf t pm with
  | [] => none
  | x :: xs => some (xs.foldl Nat.min x)

/-- The subquery `SELECT MIN(rowid) FROM t GROUP BY PMID`: one minimal
rowid per distinct PMID present in the table. -/
def groupMins (t : Table) : List Nat :=
  (pmidsOf t).dedup.filterMap (minRowid t)

/-- `cleanup_duplicates` (scraper.py lines 122-144): the DELETE keeps
exactly the rows whose rowid is in the grouped-minimum subquery
(`WHERE rowid NOT IN (SELECT MIN(rowid) ... GROUP BY PMID)`). -/
def cleanup_duplicates (t : Table) : Table :=
  t.filter fun p => decide (p.1 ∈ groupMins t)

/-- Number of distinct PMIDs, as computed by
`SELECT COUNT(DISTINCT PMID)`. -/
def distinctCount (t : Table) : Nat := (pmidsOf t).dedup.length

/-- `save_to_database` (scraper.py lines 97-119): an empty batch is
skipped before the `try`; otherwise the append either succeeds or the
storage fault is caught, leaving the table as it was. -/
def save_to_database (fault : Bool) (t : Table) (df : List ArticleRecord) : Table :=
  match df with
  | [] => t
  | _ :: _ =>
    match fault with
    | true => t
    | false => appendRows t df

/-- The cleanup step with its `except Exception` containment: a fault is
caught and the table keeps its transient duplicates. -/
def cleanup_step (fault : Bool) (t : Table) : Table :=
  match fault with
  | true => t
  | false => cleanup_duplicates t

/-- `count_records` (scraper.py lines 147-157): report the distinct PMID
count, or `0` when the storage layer faults. -/
def count_records (fault : Bool) (t : Table) : Nat :=
  match fault with
  | true => 0
  | false => distinctCount t

/-! ## The main execution block -/

/-- The external world of one run: the two decoded network interactions
and the storage-fault switches for the three database operations. -/
structure Env where
  searchResp : Except Unit Json
  summaryResp : Except Unit Json
  appendFault : Bool
  cleanupFault : Bool
  countFault : Bool

/-- Outcome of a completed run: the final table, the batch the run
fetched, and the count printed by the final check. -/
structure RunResult where
  table : Table
  fetched : List ArticleRecord
  reportedCount : Nat

/-- Steps 1-2 of the main block: `article_ids = get_pubmed_ids()`, then
`data_df = pd.DataFrame(); if article_ids: data_df = fetch_details_by_id(...)`. -/
def pipelineFetch (e : Env) : Except PyError (List ArticleRecord) := do
  let article_ids ← get_pubmed_ids e.searchResp
  match article_ids with
  | [] => Except.ok []
  | a :: rest => fetch_details_by_id (a :: rest) e.summaryResp

/-- The main execution block (scraper.py lines 160-188): fetch, then —
only for a non-empty batch — save and cleanup, then the final count.
`Except.error` means an uncaught Python exception aborted the run before
the final `print`. -/
def main_run (e : Env) (t0 : Table) : Except PyError RunResult :=
  match pipelineFetch e with
  | .error err => Except.error err
  | .ok data_df =>
    let t1 :=
      match data_df with
      | [] => t0
      | _ :: _ => cleanup_step e.cleanupFault (save_to_database e.appendFault t0 data_df)
    Except.ok
      { table := t1
        fetched := data_df
        reportedCount := count_records e.countFault t1 }

/-! ## The set of distinct identifiers -/

/-- The set of distinct PMIDs of a table. -/
def pmidFinset (t : Table) : Finset String := (pmidsOf t).toFinset

/-! ## Response shapes on which the pipeline raises nothing

The fetchers catch only `RequestException`; the following decidable
predicates delimit the decoded bodies whose nested accesses also all
succeed, so that the run completes. -/

/-- Is this JSON value a string? -/
def isStr : Json → Bool
  | .str _ => true
  | _ => false

/-- Is this JSON value an array of strings? -/
def isStrArr : Json → Bool
  | .arr xs => xs.all isStr
  | _ => false

/-- A search body whose `esearchresult.idlist` path exists and holds an
array of strings. -/
def searchShapeOk : Json → Bool
  | .obj fs =>
    match fs.lookup "esearchresult" with
    | some (.obj fs2) =>
      match fs2.lookup "idlist" with
      | some j => isStrArr j
      | none => false
    | _ => false
  | _ => false

/-- A detail object on which the field extraction raises nothing: a dict
whose `sortdate`, when present, is a string. -/
def articleOk : Json → Bool
  | .obj afs =>
    match afs.lookup "sortdate" with
    | some (.str _) => true
    | some _ => false
    | none => true
  | _ => false

/-- One entry of the `uids` list that the loop body can process: a string
mapped in the `result` dict to a processable detail object. -/
def uidOk (rfs : List (String × Json)) : Json → Bool
  | .str s =>
    match rfs.lookup s with
    | some a => articleOk a
    | none => false
  | _ => false

/-- A summary body on which `fetch_details_by_id` raises nothing: a dict
whose `result`, when present, is a dict; whose `uids`, when present, is
an array of processable uid entries. -/
def summaryShapeOk : Json → Bool
  | .obj fs =>
    match fs.lookup "result" with
    | none => true
    | some (.obj rfs) =>
      match rfs.lookup "uids" with
      | none => true
      | some (.arr us) => us.all (uidOk rfs)
      | some _ => false
    | some _ => false
  | _ => false

/-- A network interaction that either fails as a `RequestException`
(caught by the source) or delivers a body of the given shape. -/
def respOk (p : Json → Bool) : Except Unit Json → Bool
  | .error _ => true
  | .ok j => p j

/-- The strings among a list of JSON values, in order. -/
def strsOf : List Json → List String
  | [] => []
  | .str s :: us => s :: strsOf us
  | _ :: us => strsOf us

/-! ## Concrete fixtures -/

/-- A detail object carrying all three optional fields. -/
def article111 : Json :=
  Json.obj [("title", Json.str "AI device"), ("fulljournalname", Json.str "J Med"),
            ("sortdate", Json.str "2024/05/06 00:00")]

/-- A detail object missing `fulljournalname` and `sortdate`. -/
def article222 : Json :=
  Json.obj [("title", Json.str "ML imaging")]

/-- A well-shaped search body listing two identifiers. -/
def searchBody : Json :=
  Json.obj [("esearchresult", Json.obj
    [("idlist", Json.arr [Json.str "111", Json.str "222"])])]

/-- A well-shaped summary body answering for both identifiers. -/
def summaryBody : Json :=
  Json.obj [("result", Json.obj
    [("uids", Json.arr [Json.str "111", Json.str "222"]),
     ("111", article111), ("222", article222)])]

/-- A summary body whose `uids` list only the second requested id. -/
def summaryOnly222 : Json :=
  Json.obj [("result", Json.obj
    [("uids", Json.arr [Json.str "222"]), ("222", article222)])]

/-- The flattened record for id 111. -/
def rec111 : ArticleRecord :=
  { pmid := "111", title := Json.str "AI device", journal := Json.str "J Med"
    publication_Date := "2024/05/06"
    source_URL := "https://pubmed.ncbi.nlm.nih.gov/111/" }

/-- The flattened record for id 222 (absent fields become the sentinel). -/
def rec222 : ArticleRecord :=
  { pmid := "222", title := Json.str "ML imaging", journal := Json.str "N/A"
    publication_Date := "N/A"
    source_URL := "https://pubmed.ncbi.nlm.nih.gov/222/" }

/-- A row from an earlier run for id 111. -/
def rowA : ArticleRecord :=
  { pmid := "111", title := Json.str "old", journal := Json.str "J Med"
    publication_Date := "2023/01/01"
    source_URL := "https://pubmed.ncbi.nlm.nih.gov/111/" }

/-- A row from an earlier run for id 222. -/
def rowB : ArticleRecord :=
  { pmid := "222", title := Json.str "older", journal := Json.str "J2"
    publication_Date := "2023/02/02"
    source_URL := "https://pubmed.ncbi.nlm.nih.gov/222/" }

/-- A second, duplicate row for id 111. -/
def rowA2 : ArticleRecord :=
  { pmid := "111", title := Json.str "dup", journal := Json.str "J3"
    publication_Date := "2023/03/03"
    source_URL := "https://pubmed.ncbi.nlm.nih.gov/111/" }

/-- A store left with a transient duplicate of id 111. -/
def tableDup : Table := [(1, rowA), (2, rowB), (3, rowA2)]

/-- A store with one row per identifier. -/
def tableUnique : Table := [(1, rowA), (2, rowB)]

/-- A fault-free environment with well-shaped responses. -/
def envRun : Env :=
  { searchResp := Except.ok searchBody, summaryResp := Except.ok summaryBody
    appendFault := false, cleanupFault := false, countFault := false }

/-- Well-shaped responses, but every storage operation faults. -/
def envFaulty : Env :=
  { searchResp := Except.ok searchBody, summaryResp := Except.ok summaryBody
    appendFault := true, cleanupFault := true, countFault := true }

/-- A search body that is valid JSON of an unexpected shape. -/
def envShape : Env :=
  { searchResp := Except.ok (Json.obj []), summaryResp := Except.error ()
    appendFault := false, cleanupFault := false, countFault := false }

/-- A search body listing no identifiers at all. -/
def envEmpty : Env :=
  { searchResp := Except.ok (Json.obj
      [("esearchresult", Json.obj [("idlist", Json.arr [])])])
    summaryResp := Except.error ()
    appendFault := false, cleanupFault := false, countFault := false }

/-- Outcome of `envRun` on `tableDup`. -/
def rRun : RunResult :=
  { table := [(1, rowA), (2, rowB)], fetched := [rec111, rec222], reportedCount := 2 }

/-- Outcome of `envRun` on `rRun.table` (the second, idempotent run). -/
def rRunSecond : RunResult :=
  { table := [(1, rowA), (2, rowB)], fetched := [rec111, rec222], reportedCount := 2 }

/-- Outcome of `envEmpty` on `tableDup`. -/
def rEmpty : RunResult :=
  { table := tableDup, fetched := [], reportedCount := 2 }

/-! ## Basic lemmas about the table model -/

theorem foldlMin_le_init : ∀ (xs : List Nat) (x : Nat), xs.foldl Nat.min x ≤ x := by
  intro xs
  induction xs with
  | nil => intro x; exact Nat.le_refl x
  | cons y ys ih =>
    intro x
    exact Nat.le_trans (ih (Nat.min x y)) (Nat.min_le_left x y)

theorem foldlMin_le_mem :
    ∀ (xs : List Nat) (x y : Nat), y ∈ xs → xs.foldl Nat.min x ≤ y := by
  intro xs
  induction xs with
  | nil => intro x y h; cases h
  | cons z zs ih =>
    intro x y h
    cases h with
    | head => exact Nat.le_trans (foldlMin_le_init zs _) (Nat.min_le_right x z)
    | tail _ h2 => exact ih _ y h2

theorem foldlMin_mem :
    ∀ (xs : List Nat) (x : Nat), xs.foldl Nat.min x = x ∨ xs.foldl Nat.min x ∈ xs := by
  intro xs
  induction xs with
  | nil => intro x; exact Or.inl rfl
  | cons y ys ih =>
    intro x
    show ys.foldl Nat.min (Nat.min x y) = x ∨ ys.foldl Nat.min (Nat.min x y) ∈ y :: ys
    rcases ih (Nat.min x y) with h | h
    · rw [h]
      rcases Nat.le_total x y with hxy | hyx
      · exact Or.inl (Nat.min_eq_left hxy)
      · have h2 : Nat.min x y = y := Nat.min_eq_right hyx
        rw [h2]
        exact Or.inr (List.mem_cons_self y ys)
    · exact Or.inr (List.mem_cons_of_mem y h)

theorem mem_rowidsOf {t : Table} {pm : String} {rid : Nat} :
    rid ∈ rowidsOf t pm ↔ ∃ r, (rid, r) ∈ t ∧ r.pmid = pm := by
  unfold rowidsOf
  constructor
  · intro h
    rcases List.mem_map.mp h with ⟨⟨a, r⟩, hq, hfst⟩
    rcases List.mem_filter.mp hq with ⟨hqt, hpm⟩
    cases hfst
    exact ⟨r, hqt, of_decide_eq_true hpm⟩
  · rintro ⟨r, hrt, hpm⟩
    exact List.mem_map.mpr ⟨(rid, r), List.mem_filter.mpr ⟨hrt, decide_eq_true hpm⟩, rfl⟩

theorem minRowid_attained {t : Table} {pm : String} {m : Nat}
    (h : minRowid t pm = some m) : ∃ r, (m, r) ∈ t ∧ r.pmid = pm := by
  unfold minRowid at h
  cases hrow : rowidsOf t pm with
  | nil => rw [hrow] at h; cases h
  | cons x xs =>
    rw [hrow] at h
    have hm : xs.foldl Nat.min x = m := Option.some.inj h
    have hmem : m ∈ rowidsOf t pm := by
      rw [hrow]
      rcases foldlMin_mem xs x with h1 | h1
      · rw [← hm, h1]; exact List.mem_cons_self x xs
      · rw [← hm]; exact List.mem_cons_of_mem x h1
    exact mem_rowidsOf.mp hmem

theorem minRowid_le {t : Table} {pm : String} {m rid : Nat} {r : ArticleRecord}
    (h : minRowid t pm = some m) (hrt : (rid, r) ∈ t) (hpm : r.pmid = pm) :
    m ≤ rid := by
  have hmem : rid ∈ rowidsOf t pm := mem_rowidsOf.mpr ⟨r, hrt, hpm⟩
  unfold minRowid at h
  cases hrow : rowidsOf t pm with
  | nil => rw [hrow] at hmem; cases hmem
  | cons x xs =>
    rw [hrow] at h hmem
    have hm := Option.some.inj h
    subst hm
    cases hmem with
    | head => exact foldlMin_le_init xs rid
    | tail _ h2 => exact foldlMin_le_mem xs x rid h2

theorem minRowid_isSome_of_mem {t : Table} {pm : String} (h : pm ∈ pmidsOf t) :
    ∃ m, minRowid t pm = some m := by
  rcases List.mem_map.mp h with ⟨⟨a, r⟩, hq, hpm⟩
  have hmem : a ∈ rowidsOf t pm := mem_rowidsOf.mpr ⟨r, hq, hpm⟩
  unfold minRowid
  cases hrow : rowidsOf t pm with
  | nil => rw [hrow] at hmem; cases hmem
  | cons x xs => exact ⟨_, rfl⟩

theorem minRowid_mem_groupMins {t : Table} {pm : String} {m : Nat}
    (h : minRowid t pm = some m) : m ∈ groupMins t := by
  rcases minRowid_attained h with ⟨r, hrt, hpm⟩
  have hpmem : pm ∈ pmidsOf t := List.mem_map.mpr ⟨(m, r), hrt, hpm⟩
  exact List.mem_filterMap.mpr ⟨pm, List.mem_dedup.mpr hpmem, h⟩

theorem mem_cleanup_iff {t : Table} {q : Nat × ArticleRecord} :
    q ∈ cleanup_duplicates t ↔ q ∈ t ∧ q.1 ∈ groupMins t := by
  unfold cleanup_duplicates
  rw [List.mem_filter]
  constructor
  · rintro ⟨h1, h2⟩; exact ⟨h1, of_decide_eq_true h2⟩
  · rintro ⟨h1, h2⟩; exact ⟨h1, decide_eq_true h2⟩

theorem unique_fst {t : Table} (hN : (t.map Prod.fst).Nodup) {a : Nat}
    {b c : ArticleRecord} (hb : (a, b) ∈ t) (hc : (a, c) ∈ t) : b = c := by
  induction t with
  | nil => cases hb
  | cons x tl ih =>
    rw [List.map_cons, List.nodup_cons] at hN
    cases hb with
    | head =>
      cases hc with
      | head => rfl
      | tail _ hc2 =>
        exact absurd (List.mem_map.mpr ⟨(a, c), hc2, rfl⟩) hN.1
    | tail _ hb2 =>
      cases hc with
      | head => exact absurd (List.mem_map.mpr ⟨(a, b), hb2, rfl⟩) hN.1
      | tail _ hc2 => exact ih hN.2 hb2 hc2

theorem mem_cleanup_min {t : Table} (hN : (t.map Prod.fst).Nodup)
    {q : Nat × ArticleRecord} (hq : q ∈ cleanup_duplicates t) :
    minRowid t q.2.pmid = some q.1 := by
  rcases mem_cleanup_iff.mp hq with ⟨hqt, hmin⟩
  rcases List.mem_filterMap.mp hmin with ⟨pm, hpm, hminpm⟩
  rcases minRowid_attained hminpm with ⟨r, hrt, hrpm⟩
  have hq2 : (q.1, q.2) ∈ t := hqt
  have hr : r = q.2 := unique_fst hN hrt hq2
  have hpmeq : q.2.pmid = pm := by rw [← hr]; exact hrpm
  rw [hpmeq]
  exact hminpm

theorem min_survives {t : Table} {pm : String} {m : Nat} {r : ArticleRecord}
    (hmin : minRowid t pm = some m) (hrt : (m, r) ∈ t) :
    (m, r) ∈ cleanup_duplicates t :=
  mem_cleanup_iff.mpr ⟨hrt, minRowid_mem_groupMins hmin⟩

theorem mem_pmids_cleanup {t : Table} {pm : String} :
    pm ∈ pmidsOf (cleanup_duplicates t) ↔ pm ∈ pmidsOf t := by
  constructor
  · intro h
    rcases List.mem_map.mp h with ⟨q, hq, hpm⟩
    exact List.mem_map.mpr ⟨q, (mem_cleanup_iff.mp hq).1, hpm⟩
  · intro h
    rcases minRowid_isSome_of_mem h with ⟨m, hm⟩
    rcases minRowid_attained hm with ⟨r, hrt, hrpm⟩
    exact List.mem_map.mpr ⟨(m, r), min_survives hm hrt, hrpm⟩

theorem cleanup_sublist (t : Table) : List.Sublist (cleanup_duplicates t) t :=
  List.filter_sublist t

theorem nodup_pmids_cleanup {t : Table} (hN : (t.map Prod.fst).Nodup) :
    (pmidsOf (cleanup_duplicates t)).Nodup := by
  have hsub := cleanup_sublist t
  have hNs : ((cleanup_duplicates t).map Prod.fst).Nodup :=
    List.Nodup.sublist (List.Sublist.map Prod.fst hsub) hN
  have hNd : (cleanup_duplicates t).Nodup := List.Nodup.of_map Prod.fst hNs
  unfold pmidsOf
  refine List.Nodup.map_on ?_ hNd
  intro x hx y hy hpm
  have hmx := mem_cleanup_min hN hx
  have hmy := mem_cleanup_min hN hy
  rw [hpm] at hmx
  rw [hmx] at hmy
  have h1 : x.1 = y.1 := Option.some.inj hmy
  have hx2 : (x.1, x.2) ∈ t := hsub.subset hx
  have hy2 : (x.1, y.2) ∈ t := by rw [h1]; exact hsub.subset hy
  have h2 : x.2 = y.2 := unique_fst hN hx2 hy2
  exact Prod.ext h1 h2

/-! ## Appending preserves well-formedness; pmid bookkeeping -/

theorem le_foldr_max {l : List Nat} {a : Nat} (h : a ∈ l) : a ≤ l.foldr max 0 := by
  induction l with
  | nil => cases h
  | cons x xs ih =>
    cases h with
    | head => exact Nat.le_max_left a (xs.foldr max 0)
    | tail _ h2 => exact Nat.le_trans (ih h2) (Nat.le_max_right x (xs.foldr max 0))

theorem lt_nextRowid {t : Table} {a : Nat} (h : a ∈ t.map Prod.fst) :
    a < nextRowid t :=
  Nat.lt_succ_of_le (le_foldr_max h)

theorem wf_insertRow {t : Table} (h : wfTable t) (r : ArticleRecord) :
    wfTable (insertRow t r) := by
  unfold wfTable insertRow
  rw [List.map_append, List.pairwise_append]
  refine ⟨h, List.pairwise_singleton _ _, ?_⟩
  intro a ha b hb
  simp only [List.map_cons, List.map_nil, List.mem_singleton] at hb
  rw [hb]
  exact lt_nextRowid ha

theorem wf_appendRows {t : Table} (h : wfTable t) (rs : List ArticleRecord) :
    wfTable (appendRows t rs) := by
  induction rs generalizing t with
  | nil => exact h
  | cons r rs ih => exact ih (wf_insertRow h r)

theorem nodup_rowids_of_wf {t : Table} (h : wfTable t) :
    (t.map Prod.fst).Nodup :=
  List.Pairwise.imp Nat.ne_of_lt h

theorem map_snd_appendRows (t : Table) (rs : List ArticleRecord) :
    (appendRows t rs).map Prod.snd = t.map Prod.snd ++ rs := by
  induction rs generalizing t with
  | nil => simp [appendRows]
  | cons r rs ih =>
    have h1 : appendRows t (r :: rs) = appendRows (insertRow t r) rs := rfl
    rw [h1, ih, insertRow, List.map_append]
    simp

theorem pmidsOf_appendRows (t : Table) (rs : List ArticleRecord) :
    pmidsOf (appendRows t rs) = pmidsOf t ++ rs.map (fun r => r.pmid) := by
  have h := map_snd_appendRows t rs
  have h2 : ∀ (u : Table), pmidsOf u = (u.map Prod.snd).map (fun r => r.pmid) := by
    intro u
    unfold pmidsOf
    rw [List.map_map]
    rfl
  rw [h2, h, List.map_append, ← h2]

theorem distinctCount_eq_card (t : Table) :
    distinctCount t = (pmidFinset t).card :=
  (List.card_toFinset (pmidsOf t)).symm

theorem pmidFinset_cleanup (t : Table) :
    pmidFinset (cleanup_duplicates t) = pmidFinset t := by
  apply Finset.ext
  intro pm
  simp only [pmidFinset, List.mem_toFinset]
  exact mem_pmids_cleanup

theorem pmidFinset_appendRows (t : Table) (rs : List ArticleRecord) :
    pmidFinset (appendRows t rs) =
      pmidFinset t ∪ (rs.map fun r => r.pmid).toFinset := by
  unfold pmidFinset
  rw [pmidsOf_appendRows, List.toFinset_append]

/-! ## Success lemmas for the fetch stage -/

theorem strList_ok :
    ∀ xs : List Json, xs.all isStr = true → ∃ ids, strList xs = Except.ok ids := by
  intro xs
  induction xs with
  | nil => intro _; exact ⟨[], rfl⟩
  | cons x xs ih =>
    intro h
    rw [List.all_cons, Bool.and_eq_true] at h
    rcases h with ⟨hx, hxs⟩
    rcases ih hxs with ⟨ids, hids⟩
    cases x with
    | str s =>
      refine ⟨s :: ids, ?_⟩
      unfold strList
      rw [hids]
      rfl
    | null => cases hx
    | num n => cases hx
    | arr l => cases hx
    | obj l => cases hx

theorem exBind_ok {α β : Type} (a : α) (f : α → Except PyError β) :
    (Except.ok a >>= f) = f a := rfl

theorem get_pubmed_ids_ok {r : Except Unit Json}
    (h : respOk searchShapeOk r = true) :
    ∃ ids, get_pubmed_ids r = Except.ok ids := by
  cases r with
  | error u => exact ⟨[], rfl⟩
  | ok j =>
    cases j with
    | obj fs =>
      simp only [respOk, searchShapeOk] at h
      cases h1 : fs.lookup "esearchresult" with
      | none => simp only [h1] at h; cases h
      | some esr =>
        simp only [h1] at h
        cases esr with
        | obj fs2 =>
          cases h2 : fs2.lookup "idlist" with
          | none => simp only [h2] at h; cases h
          | some jl =>
            simp only [h2] at h
            cases jl with
            | arr xs =>
              rcases strList_ok xs h with ⟨ids, hids⟩
              refine ⟨ids, ?_⟩
              simp only [get_pubmed_ids, Json.index, h1, h2, exBind_ok, asStrList]
              exact hids
            | null => cases h
            | str s => cases h
            | num n => cases h
            | obj l => cases h
        | null => cases h
        | str s => cases h
        | num n => cases h
        | arr l => cases h
    | null => cases h
    | str s => cases h
    | num n => cases h
    | arr l => cases h

theorem procUid_ok {fs rfs : List (String × Json)} {s : String} {a : Json}
    (hres : fs.lookup "result" = some (Json.obj rfs))
    (ha : rfs.lookup s = some a) (hart : articleOk a = true) :
    ∃ r, procUid (Json.obj fs) (Json.str s) = Except.ok r ∧ r.pmid = s := by
  cases a with
  | obj afs =>
    simp only [procUid, mkRecord, Json.index, hres, exBind_ok, ha]
    simp only [flattenArticle, Json.getD, exBind_ok]
    cases h3 : afs.lookup "sortdate" with
    | none =>
      simp only [h3, Option.getD_none]
      exact ⟨_, rfl, rfl⟩
    | some sd =>
      simp only [articleOk, h3] at hart
      cases sd with
      | str s2 =>
        simp only [h3, Option.getD_some]
        exact ⟨_, rfl, rfl⟩
      | null => cases hart
      | num n => cases hart
      | arr l => cases hart
      | obj l => cases hart
  | null => cases hart
  | str s2 => cases hart
  | num n => cases hart
  | arr l => cases hart

theorem buildRecords_ok {fs rfs : List (String × Json)}
    (hres : fs.lookup "result" = some (Json.obj rfs)) :
    ∀ us : List Json, us.all (uidOk rfs) = true →
      ∃ rs, buildRecords (Json.obj fs) us = Except.ok rs ∧
        rs.map (fun r => r.pmid) = strsOf us := by
  intro us
  induction us with
  | nil => intro _; exact ⟨[], rfl, rfl⟩
  | cons u us ih =>
    intro h
    rw [List.all_cons, Bool.and_eq_true] at h
    rcases h with ⟨hu, hus⟩
    rcases ih hus with ⟨rs, hrs, hpm⟩
    cases u with
    | str s =>
      have hlook : ∃ a, rfs.lookup s = some a ∧ articleOk a = true := by
        simp only [uidOk] at hu
        cases hl : rfs.lookup s with
        | none => simp only [hl] at hu; cases hu
        | some a => simp only [hl] at hu; exact ⟨a, rfl, hu⟩
      rcases hlook with ⟨a, ha, hart⟩
      rcases procUid_ok hres ha hart with ⟨r, hr, hrpm⟩
      refine ⟨r :: rs, ?_, ?_⟩
      · simp only [buildRecords, hr, hrs, exBind_ok]
      · simp only [strsOf, List.map_cons, hpm, hrpm]
    | null => cases hu
    | num n => cases hu
    | arr l => cases hu
    | obj l => cases hu

theorem fetch_details_shape_ok {ids : List String} {j : Json}
    (hj : summaryShapeOk j = true) :
    ∃ rs, fetch_details_by_id ids (Except.ok j) = Except.ok rs := by
  cases ids with
  | nil => exact ⟨[], rfl⟩
  | cons i0 irest =>
    cases j with
    | obj fs =>
      simp only [summaryShapeOk] at hj
      simp only [fetch_details_by_id, Json.getD, exBind_ok]
      cases h1 : fs.lookup "result" with
      | none =>
        simp only [h1, Option.getD_none]
        exact ⟨[], rfl⟩
      | some resv =>
        simp only [h1] at hj
        cases resv with
        | obj rfs =>
          simp only [h1, Option.getD_some, exBind_ok]
          cases h2 : rfs.lookup "uids" with
          | none =>
            simp only [h2, Option.getD_none]
            exact ⟨[], rfl⟩
          | some uv =>
            simp only [h2] at hj
            cases uv with
            | arr us =>
              simp only [h2, Option.getD_some, asIterList, exBind_ok]
              rcases buildRecords_ok h1 us hj with ⟨rs, hrs, _⟩
              exact ⟨rs, hrs⟩
            | null => cases hj
            | str s => cases hj
            | num n => cases hj
            | obj l => cases hj
        | null => cases hj
        | str s => cases hj
        | num n => cases hj
        | arr l => cases hj
    | null => cases hj
    | str s => cases hj
    | num n => cases hj
    | arr l => cases hj

/-! ## Run-level bookkeeping -/

theorem main_run_inv {e : Env} {t0 : Table} {r : RunResult}
    (h : main_run e t0 = Except.ok r) :
    pipelineFetch e = Except.ok r.fetched ∧
    r.table = (match r.fetched with
      | [] => t0
      | _ :: _ => cleanup_step e.cleanupFault (save_to_database e.appendFault t0 r.fetched)) ∧
    r.reportedCount = count_records e.countFault r.table := by
  cases hpf : pipelineFetch e with
  | error err =>
    simp only [main_run, hpf] at h
    cases h
  | ok df =>
    simp only [main_run, hpf] at h
    cases h
    exact ⟨rfl, rfl, rfl⟩

/-! ## Cleanup on a table without duplicate identifiers -/

theorem group_of_unique {t : Table} (h : (pmidsOf t).Nodup)
    {q : Nat × ArticleRecord} (hq : q ∈ t) :
    t.filter (fun p => decide (p.2.pmid = q.2.pmid)) = [q] := by
  induction t with
  | nil => cases hq
  | cons y ys ih =>
    unfold pmidsOf at h
    rw [List.map_cons, List.nodup_cons] at h
    cases hq with
    | head =>
      rw [List.filter_cons_of_pos (by simp)]
      have hnil : ys.filter (fun p => decide (p.2.pmid = q.2.pmid)) = [] := by
        rw [List.filter_eq_nil_iff]
        intro p hp
        simp only [decide_eq_true_eq]
        intro heq
        exact h.1 (List.mem_map.mpr ⟨p, hp, heq⟩)
      rw [hnil]
    | tail _ hq2 =>
      have hne : ¬ (y.2.pmid = q.2.pmid) := by
        intro heq
        exact h.1 (List.mem_map.mpr ⟨q, hq2, heq.symm⟩)
      rw [List.filter_cons_of_neg (by simpa using hne)]
      exact ih h.2 hq2

theorem rowids_group_of_unique {t : Table} (h : (pmidsOf t).Nodup)
    {q : Nat × ArticleRecord} (hq : q ∈ t) :
    rowidsOf t q.2.pmid = [q.1] := by
  unfold rowidsOf
  rw [group_of_unique h hq]
  rfl

theorem eq_singleton_of_all_eq {α : Type} {l : List α} {q : α} (hN : l.Nodup)
    (hq : q ∈ l) (hall : ∀ x ∈ l, x = q) : l = [q] := by
  cases l with
  | nil => cases hq
  | cons a l2 =>
    have ha : a = q := hall a (List.mem_cons_self a l2)
    subst ha
    rw [List.nodup_cons] at hN
    cases l2 with
    | nil => rfl
    | cons b l3 =>
      have hb : b = a := hall b (List.mem_cons_of_mem a (List.mem_cons_self b l3))
      exfalso
      apply hN.1
      rw [hb]
      exact List.mem_cons_self a l3

theorem find_first_min {t : Table} (hP : t.Pairwise (fun a b => a.1 < b.1))
    {P : Nat × ArticleRecord → Bool} {q : Nat × ArticleRecord}
    (h : t.find? P = some q) :
    ∀ x ∈ t, P x = true → q.1 ≤ x.1 := by
  induction t with
  | nil => cases h
  | cons y ys ih =>
    rw [List.pairwise_cons] at hP
    cases hPy : P y with
    | true =>
      rw [List.find?_cons_of_pos _ hPy] at h
      have hyq : y = q := Option.some.inj h
      subst hyq
      intro x hx hPx
      cases hx with
      | head => exact Nat.le_refl _
      | tail _ hx2 => exact Nat.le_of_lt (hP.1 x hx2)
    | false =>
      rw [List.find?_cons_of_neg _ (by simp [hPy])] at h
      intro x hx hPx
      cases hx with
      | head => rw [hPx] at hPy; cases hPy
      | tail _ hx2 => exact ih hP.2 h x hx2 hPx

/-- C8: running `cleanup_duplicates` on a table already free of duplicate
identifiers deletes no rows — the table, hence its row count, is
unchanged (an idempotent no-op). -/
theorem cleanup_noop_when_no_duplicates {t : Table} (h : (pmidsOf t).Nodup) :
    cleanup_duplicates t = t := by
  unfold cleanup_duplicates
  rw [List.filter_eq_self]
  intro q hq
  rw [decide_eq_true_eq]
  have hmin : minRowid t q.2.pmid = some q.1 := by
    unfold minRowid
    rw [rowids_group_of_unique h hq]
    rfl
  exact minRowid_mem_groupMins hmin

theorem run_table_pmidFinset {e : Env} {t0 : Table} {r : RunResult}
    (haf : e.appendFault = false) (hcf : e.cleanupFault = false)
    (hrun : main_run e t0 = Except.ok r) :
    pmidFinset r.table = pmidFinset t0 ∪ (r.fetched.map fun x => x.pmid).toFinset := by
  rcases main_run_inv hrun with ⟨hpf, htab, hcount⟩
  cases hdf : r.fetched with
  | nil =>
    simp only [hdf] at htab
    rw [htab]
    simp
  | cons d ds =>
    simp only [hdf] at htab
    rw [hcf, haf] at htab
    have htab2 : r.table = cleanup_duplicates (appendRows t0 (d :: ds)) := htab
    rw [htab2, pmidFinset_cleanup, pmidFinset_appendRows]

/-! ## The claims -/

/-- C1 counterexample: the failure taxonomy is not handled uniformly. A
search response with a successful HTTP status and a well-formed JSON body
of unexpected shape (here `{}`, missing `esearchresult`) raises a
KeyError that `except requests.exceptions.RequestException` does not
catch: the run aborts instead of substituting an empty default and never
reaches its final log line. -/
theorem unexpected_shape_aborts_run :
    main_run envShape [] = Except.error PyError.keyError ∧
    ¬ ∃ r, main_run envShape [] = Except.ok r := by
  constructor
  · rfl
  · rintro ⟨r, hr⟩
    rw [show main_run envShape [] = Except.error PyError.keyError from rfl] at hr
    cases hr

/-- C1 amended: transport/HTTP failures (including undecodable bodies) on
either endpoint are caught locally and default to empty results, and
storage-layer failures on append, reconcile or count are caught (any
fault flags); for such failures the process reaches its final log line.
The substitution policy does not extend to well-formed JSON of unexpected
shape, whose KeyError/TypeError/AttributeError propagate uncaught. -/
theorem soft_failure_on_transport_and_storage (e : Env) (t0 : Table)
    (hs : respOk searchShapeOk e.searchResp = true)
    (hm : respOk summaryShapeOk e.summaryResp = true) :
    ∃ r, main_run e t0 = Except.ok r := by
  rcases get_pubmed_ids_ok hs with ⟨ids, hids⟩
  have hdf : ∃ df, pipelineFetch e = Except.ok df := by
    simp only [pipelineFetch, hids, exBind_ok]
    cases ids with
    | nil => exact ⟨[], rfl⟩
    | cons a rest =>
      cases hr : e.summaryResp with
      | error u => exact ⟨[], rfl⟩
      | ok j =>
        have hj : summaryShapeOk j = true := by
          rw [hr] at hm
          exact hm
        exact fetch_details_shape_ok hj
  rcases hdf with ⟨df, hdfe⟩
  cases hmr : main_run e t0 with
  | ok r => exact ⟨r, rfl⟩
  | error err =>
    simp only [main_run, hdfe] at hmr
    cases hmr

/-- C1 witness: with well-shaped responses and every storage operation
faulting, the run still completes. -/
theorem soft_failure_on_transport_and_storage_witness :
    respOk searchShapeOk envFaulty.searchResp = true ∧
    respOk summaryShapeOk envFaulty.summaryResp = true ∧
    ∃ r, main_run envFaulty [] = Except.ok r :=
  ⟨rfl, rfl, soft_failure_on_transport_and_storage envFaulty [] rfl rfl⟩

/-- C2 counterexample: the extraction loop iterates over the *response's*
`uids` list, not over the input identifier list. A summary response
listing only `"222"` for the request `["111", "222"]` yields a single
record, so the batch is not one-per-input-identifier. -/
theorem fetch_follows_response_not_input :
    fetch_details_by_id ["111", "222"] (Except.ok summaryOnly222) =
      Except.ok [rec222] ∧
    ¬ ∃ rs, fetch_details_by_id ["111", "222"] (Except.ok summaryOnly222) =
        Except.ok rs ∧ rs.map (fun x => x.pmid) = ["111", "222"] := by
  constructor
  · rfl
  · rintro ⟨rs, h1, h2⟩
    rw [show fetch_details_by_id ["111", "222"] (Except.ok summaryOnly222) =
      Except.ok [rec222] from rfl] at h1
    have hrs : rs = [rec222] := (Except.ok.inj h1).symm
    rw [hrs] at h2
    exact absurd h2 (by decide)

/-- C2 amended: `fetch_details_by_id` produces exactly one record per
entry of the response's `uids` list, in that order; when the response
lists exactly the requested identifiers (the upstream contract), this is
one record per input identifier, positionally matching. -/
theorem fetch_one_record_per_listed_uid {ids : List String}
    {fs rfs : List (String × Json)} {us : List Json}
    (hres : fs.lookup "result" = some (Json.obj rfs))
    (huids : rfs.lookup "uids" = some (Json.arr us))
    (hall : us.all (uidOk rfs) = true)
    (hecho : strsOf us = ids) (hne : ids ≠ []) :
    ∃ rs, fetch_details_by_id ids (Except.ok (Json.obj fs)) = Except.ok rs ∧
      rs.map (fun x => x.pmid) = ids := by
  rcases buildRecords_ok hres us hall with ⟨rs, hrs, hpm⟩
  cases ids with
  | nil => exact absurd rfl hne
  | cons i0 irest =>
    refine ⟨rs, ?_, by rw [hpm, hecho]⟩
    simp only [fetch_details_by_id, Json.getD, hres, Option.getD_some, exBind_ok,
      huids, asIterList]
    exact hrs

/-- C2 witness: a summary response echoing both requested identifiers
yields one record per input identifier, in input order. -/
theorem fetch_one_record_per_listed_uid_witness :
    ∃ rs, fetch_details_by_id ["111", "222"] (Except.ok summaryBody) = Except.ok rs ∧
      rs.map (fun x => x.pmid) = ["111", "222"] :=
  @fetch_one_record_per_listed_uid ["111", "222"]
    [("result", Json.obj
      [("uids", Json.arr [Json.str "111", Json.str "222"]),
       ("111", article111), ("222", article222)])]
    [("uids", Json.arr [Json.str "111", Json.str "222"]),
     ("111", article111), ("222", article222)]
    [Json.str "111", Json.str "222"]
    rfl rfl rfl rfl (by decide)

/-- C3: a full run whose fetch produced a non-empty batch and whose
cleanup statement did not fault leaves a store in which no two rows share
an identifier, whatever the store held before the run (the append step is
allowed to create transient duplicates; the cleanup pass removes them,
and it deduplicates pre-existing rows as well, even when the append
itself faulted). -/
theorem run_establishes_unique_identifiers {e : Env} {t0 : Table} {r : RunResult}
    (hwf : wfTable t0) (hcf : e.cleanupFault = false)
    (hrun : main_run e t0 = Except.ok r) (hne : r.fetched ≠ []) :
    (pmidsOf r.table).Nodup := by
  rcases main_run_inv hrun with ⟨hpf, htab, hcount⟩
  cases hdf : r.fetched with
  | nil => exact absurd hdf hne
  | cons d ds =>
    simp only [hdf] at htab
    rw [hcf] at htab
    have hwf2 : wfTable (save_to_database e.appendFault t0 (d :: ds)) := by
      cases haf : e.appendFault
      · exact wf_appendRows hwf (d :: ds)
      · exact hwf
    have htab2 : r.table =
        cleanup_duplicates (save_to_database e.appendFault t0 (d :: ds)) := htab
    rw [htab2]
    exact nodup_pmids_cleanup (nodup_rowids_of_wf hwf2)

/-- C3 witness: starting from a store that still holds a duplicate of id
111, a fault-free run ends with no two rows sharing an identifier. -/
theorem run_establishes_unique_identifiers_witness :
    wfTable tableDup ∧ ¬ (pmidsOf tableDup).Nodup ∧
    main_run envRun tableDup = Except.ok rRun ∧
    (pmidsOf rRun.table).Nodup :=
  ⟨by decide, by decide, rfl,
    @run_establishes_unique_identifiers envRun tableDup rRun (by decide) rfl rfl
      (by simp [rRun])⟩

/-- C4: on any table with distinct rowids increasing in insertion order,
`cleanup_duplicates` retains, for each identifier present, exactly the
earliest-inserted row carrying it (the first matching row, which is the
`MIN(rowid)` survivor) and deletes every other row with that identifier. -/
theorem cleanup_keeps_earliest_row {t : Table} (hwf : wfTable t) {pm : String}
    (hpm : pm ∈ pmidsOf t) :
    ∃ q, t.find? (fun p => decide (p.2.pmid = pm)) = some q ∧
      (cleanup_duplicates t).filter (fun p => decide (p.2.pmid = pm)) = [q] := by
  have hN : (t.map Prod.fst).Nodup := nodup_rowids_of_wf hwf
  have hsome : (t.find? (fun p => decide (p.2.pmid = pm))).isSome := by
    rw [List.find?_isSome]
    rcases List.mem_map.mp hpm with ⟨q0, hq0, hq0pm⟩
    exact ⟨q0, hq0, decide_eq_true hq0pm⟩
  rcases Option.isSome_iff_exists.mp hsome with ⟨q, hq⟩
  have hqP0 := List.find?_some hq
  have hqP : q.2.pmid = pm := of_decide_eq_true hqP0
  have hqt : q ∈ t := List.mem_of_find?_eq_some hq
  have hP : t.Pairwise (fun a b => a.1 < b.1) := List.pairwise_map.mp hwf
  have hle := find_first_min hP hq
  have hmin : minRowid t pm = some q.1 := by
    rcases minRowid_isSome_of_mem hpm with ⟨m, hm⟩
    rcases minRowid_attained hm with ⟨rv, hrvt, hrvpm⟩
    have h1 : m ≤ q.1 := minRowid_le hm hqt hqP
    have h2 : q.1 ≤ m := hle (m, rv) hrvt (decide_eq_true hrvpm)
    rw [← Nat.le_antisymm h1 h2]
    exact hm
  have hqc : q ∈ cleanup_duplicates t :=
    mem_cleanup_iff.mpr ⟨hqt, minRowid_mem_groupMins hmin⟩
  have hall : ∀ x ∈ (cleanup_duplicates t).filter (fun p => decide (p.2.pmid = pm)),
      x = q := by
    intro x hx
    rcases List.mem_filter.mp hx with ⟨hxc, hxpm⟩
    have hxpm2 : x.2.pmid = pm := of_decide_eq_true hxpm
    have hmx := mem_cleanup_min hN hxc
    rw [hxpm2, hmin] at hmx
    have h1 : q.1 = x.1 := Option.some.inj hmx
    have hxt : x ∈ t := (cleanup_sublist t).subset hxc
    have hq2 : (x.1, q.2) ∈ t := by rw [← h1]; exact hqt
    have hx2 : (x.1, x.2) ∈ t := hxt
    exact Prod.ext h1.symm (unique_fst hN hx2 hq2)
  have hqf : q ∈ (cleanup_duplicates t).filter (fun p => decide (p.2.pmid = pm)) :=
    List.mem_filter.mpr ⟨hqc, decide_eq_true hqP⟩
  have hNt : t.Nodup := List.Nodup.of_map Prod.fst hN
  have hfN : ((cleanup_duplicates t).filter (fun p => decide (p.2.pmid = pm))).Nodup :=
    List.Nodup.sublist (List.Sublist.trans (List.filter_sublist _) (cleanup_sublist t)) hNt
  exact ⟨q, hq, eq_singleton_of_all_eq hfN hqf hall⟩

/-- C4 witness: in a store holding two rows for id 111, the cleanup keeps
exactly the earliest-inserted one. -/
theorem cleanup_keeps_earliest_row_witness :
    wfTable tableDup ∧ "111" ∈ pmidsOf tableDup ∧
    ∃ q, tableDup.find? (fun p => decide (p.2.pmid = "111")) = some q ∧
      (cleanup_duplicates tableDup).filter (fun p => decide (p.2.pmid = "111")) = [q] :=
  ⟨by decide, by decide, cleanup_keeps_earliest_row (by decide) (by decide)⟩

/-- C5: running the pipeline twice against the same upstream responses
(no storage faults) yields a store whose distinct-identifier count equals
the count after the first run: the second blind append re-creates the
duplicates and the reconciliation collapses them. -/
theorem pipeline_idempotent_distinct_count {e : Env} {t0 : Table} {r1 r2 : RunResult}
    (haf : e.appendFault = false) (hcf : e.cleanupFault = false)
    (h1 : main_run e t0 = Except.ok r1) (h2 : main_run e r1.table = Except.ok r2) :
    distinctCount r2.table = distinctCount r1.table := by
  have hfe : r1.fetched = r2.fetched := by
    have hpf1 := (main_run_inv h1).1
    have hpf2 := (main_run_inv h2).1
    rw [hpf1] at hpf2
    exact Except.ok.inj hpf2
  have ha := run_table_pmidFinset haf hcf h1
  have hb := run_table_pmidFinset haf hcf h2
  rw [← hfe, ha] at hb
  rw [distinctCount_eq_card, distinctCount_eq_card, hb, ha, Finset.union_assoc,
    Finset.union_self]

set_option maxHeartbeats 1000000 in
/-- C5 witness: the second fault-free run over the same responses leaves
the distinct count at 2. -/
theorem pipeline_idempotent_distinct_count_witness :
    main_run envRun tableDup = Except.ok rRun ∧
    main_run envRun rRun.table = Except.ok rRunSecond ∧
    distinctCount rRunSecond.table = distinctCount rRun.table :=
  ⟨rfl, rfl,
    @pipeline_idempotent_distinct_count envRun tableDup rRun rRunSecond rfl rfl rfl rfl⟩

/-- C6: for a detail object with a string-valued sort-date, the record's
publication date is the first 10 characters of that value; when sort-date
is absent, the sentinel is substituted first and then truncated, so the
field is the first 10 characters of `"N/A"`, i.e. `"N/A"` itself. -/
theorem publication_date_truncation (uid : String) (afs : List (String × Json)) :
    (∀ s, afs.lookup "sortdate" = some (Json.str s) →
      ∃ r, flattenArticle uid (Json.obj afs) = Except.ok r ∧
        r.publication_Date = strTake s 10) ∧
    (afs.lookup "sortdate" = none →
      ∃ r, flattenArticle uid (Json.obj afs) = Except.ok r ∧
        r.publication_Date = strTake "N/A" 10 ∧ r.publication_Date = "N/A") := by
  constructor
  · intro s hs
    simp only [flattenArticle, Json.getD, exBind_ok, hs, Option.getD_some]
    exact ⟨_, rfl, rfl⟩
  · intro hs
    simp only [flattenArticle, Json.getD, exBind_ok, hs, Option.getD_none]
    exact ⟨_, rfl, rfl, rfl⟩

/-- C6 witness: a 16-character sort-date is truncated to its first 10
characters; an absent sort-date yields the truncated sentinel. -/
theorem publication_date_truncation_witness :
    (∃ r, flattenArticle "111" (Json.obj [("sortdate", Json.str "2024/05/06 00:00")]) =
      Except.ok r ∧ r.publication_Date = strTake "2024/05/06 00:00" 10) ∧
    (∃ r, flattenArticle "222" (Json.obj [("title", Json.str "ML imaging")]) =
      Except.ok r ∧ r.publication_Date = strTake "N/A" 10 ∧ r.publication_Date = "N/A") :=
  ⟨(publication_date_truncation "111" [("sortdate", Json.str "2024/05/06 00:00")]).1
      "2024/05/06 00:00" rfl,
   (publication_date_truncation "222" [("title", Json.str "ML imaging")]).2 rfl⟩

/-- C7: an empty identifier list short-circuits `fetch_details_by_id` to
an empty batch whose value is independent of the network (the summary
interaction, an explicit parameter here, is never consulted), and the
save step skips an empty batch without touching the table, whatever the
storage fault switch. -/
theorem empty_input_short_circuits :
    (∀ resp : Except Unit Json, fetch_details_by_id [] resp = Except.ok []) ∧
    (∀ resp1 resp2 : Except Unit Json,
      fetch_details_by_id [] resp1 = fetch_details_by_id [] resp2) ∧
    (∀ (fault : Bool) (t : Table), save_to_database fault t [] = t) :=
  ⟨fun _ => rfl, fun _ _ => rfl, fun _ _ => rfl⟩

/-- C8 witness: on a two-row table with distinct identifiers the cleanup
deletes nothing. -/
theorem cleanup_noop_when_no_duplicates_witness :
    (pmidsOf tableUnique).Nodup ∧ cleanup_duplicates tableUnique = tableUnique :=
  ⟨by decide, cleanup_noop_when_no_duplicates (by decide)⟩

/-- C9: `count_records` reports the number of distinct identifiers in the
table and returns it; on a storage fault it returns zero instead of
propagating. -/
theorem count_reports_distinct_or_zero (fault : Bool) (t : Table) :
    count_records fault t = if fault then 0 else (pmidFinset t).card := by
  cases fault with
  | false => exact distinctCount_eq_card t
  | true => rfl

/-- C10: when the run's fetched batch is empty (no matches or a failed
call), the save and cleanup steps do not execute: the store is exactly
what it was before the run — pre-existing duplicate rows included — while
the distinct count is still computed and reported. -/
theorem empty_batch_leaves_store_unchanged {e : Env} {t0 : Table} {r : RunResult}
    (hrun : main_run e t0 = Except.ok r) (hf : r.fetched = [])
    (hcf : e.countFault = false) :
    r.table = t0 ∧ r.reportedCount = distinctCount t0 := by
  rcases main_run_inv hrun with ⟨hpf, htab, hcount⟩
  simp only [hf] at htab
  refine ⟨htab, ?_⟩
  rw [hcount, hcf, htab]
  rfl

/-- C10 witness: a run that finds no identifiers leaves the duplicate of
id 111 in place and still reports the distinct count. -/
theorem empty_batch_leaves_store_unchanged_witness :
    main_run envEmpty tableDup = Except.ok rEmpty ∧ rEmpty.fetched = [] ∧
    ¬ (pmidsOf tableDup).Nodup ∧
    rEmpty.table = tableDup ∧ rEmpty.reportedCount = distinctCount tableDup :=
  ⟨rfl, rfl, by decide,
    @empty_batch_leaves_store_unchanged envEmpty tableDup rEmpty rfl rfl rfl⟩

